import Mathlib

/-!
Shallow embedding of the core of `mcl-tool` (`src/mcl/executor.py`): the
script Resolver (`_resolve_script_definition`, with the `run`-fallback of
`execute`) and the template Renderer (`render_script` and its substitution
passes `_replace_optional`, `_replace_positional`, `_replace_vars`,
`_unescape_dollars`).

Python values that can appear as a script definition (strings, lists,
dicts, anything else) are embedded as the inductive `Value`; dicts become
association lists with unique keys, looked up by first match.  Errors
(`ValueError` and the one reachable `IndexError`) are embedded as
`Except String` carrying the exact message text (the `{type(...)!r}` part
of the malformed-payload message is elided).  The regex passes, which in
Python are `re.sub` with a negative lookbehind `(?<!\$)`, are embedded as
left-to-right character scanners that track whether the previous character
of the *original* string is a dollar (matching `re.sub`, which scans the
input string and never rescans replacement text within one pass); the
scanners take a fuel argument, always called with the string length, which
bounds the number of scan steps so that every definition is structurally
recursive and executable.
-/

namespace Mcl

/-- A Python value as far as `executor.py` inspects one: a `str`, a
`Sequence` of values (list), a `Mapping` (dict, as an assoc list in
insertion order with unique keys), or anything else. -/
inductive Value where
  | str (s : String)
  | seq (xs : List Value)
  | map (entries : List (String × Value))
  | other

mutual

/-- Size of a value: an executable bound on the depth of nested mappings,
used as resolution fuel. -/
def valueSize : Value → Nat
  | .map entries => entriesSize entries + 1
  | _ => 1

/-- Size of a mapping's entry list (see `valueSize`). -/
def entriesSize : List (String × Value) → Nat
  | [] => 0
  | (_, v) :: rest => valueSize v + entriesSize rest + 1

end

/-- `dict` lookup on the embedded mapping (keys are unique, first match). -/
def lookupVal : List (String × Value) → String → Option Value
  | [], _ => none
  | (k, v) :: rest, key => if k = key then some v else lookupVal rest key

/-- `dict` lookup for the `vars` table (values already coerced by `str`). -/
def lookupStr : List (String × String) → String → Option String
  | [], _ => none
  | (k, v) :: rest, key => if k = key then some v else lookupStr rest key

/-- `_format_path`: dotted representation of the script path. -/
def format_path (scriptName : String) (fragments : List String) : String :=
  if fragments = [] then scriptName
  else scriptName ++ "." ++ String.intercalate "." fragments

/-- Lexicographic comparison of character lists by code point: exactly the
order Python's `sorted` uses on `str` (a proper prefix sorts first). -/
def charsLe : List Char → List Char → Bool
  | [], _ => true
  | _ :: _, [] => false
  | a :: as, b :: bs => if a = b then charsLe as bs else decide (a < b)

/-- Python's `<=` on strings (code-point lexicographic). -/
def strLe (a b : String) : Bool := charsLe a.data b.data

/-- `strLe` as a relation, for `List.insertionSort`. -/
def strLeP (a b : String) : Prop := strLe a b = true

instance : DecidableRel strLeP := fun a b => decEq (strLe a b) true

/-- Python's `sorted` on a list of strings (comparison by code points);
`List.insertionSort` computes the same sorted list. -/
def sortedKeys (keys : List String) : List String :=
  List.insertionSort strLeP keys

/-- Whether a `Value` is a `str` (the `isinstance(step, str)` check). -/
def isStrVal : Value → Bool
  | .str _ => true
  | _ => false

/-- `_coerce_steps`: normalize a leaf payload into a list of shell
fragments.  A bare string becomes a one-element list; a list must contain
only strings; anything else (including a dict, which is not a Python
`Sequence`) is an unsupported payload. -/
def coerce_steps (payload : Value) (scriptName : String) (path : List String) :
    Except String (List String) :=
  match payload with
  | .str s => Except.ok [s]
  | .seq xs =>
      if xs.all isStrVal then
        Except.ok (xs.filterMap fun v =>
          match v with
          | .str s => some s
          | _ => none)
      else
        Except.error ("Script '" ++ format_path scriptName path ++
          "' must contain only string steps")
  | _ =>
      Except.error ("Script '" ++ format_path scriptName path ++
        "' has unsupported payload type")

/-- The `while isinstance(current, Mapping)` loop of
`_resolve_script_definition`.  `tty` is `sys.stdin.isatty() and
sys.stdout.isatty()`; `prompt` is `questionary.select(...).ask()`, `none`
meaning the user cancelled.  `fuel` bounds the number of loop iterations
(the wrapper passes `sizeOf` of the node, which exceeds the tree depth);
the fuel-exhausted error is unreachable from the wrapper. -/
def resolveAux (scriptName : String) (tty : Bool)
    (prompt : String → List String → Option String) :
    Nat → Value → List String → List String →
    Except String (List String × List String)
  | fuel, Value.map entries, remaining, path =>
    match remaining with
    | [] =>
      let availableOptions := sortedKeys (entries.map Prod.fst)
      if tty = false then
        Except.error ("Script '" ++ format_path scriptName path ++
          "' requires a subcommand. Available options: " ++
          String.intercalate ", " availableOptions)
      else
        match prompt ("Select a subcommand for '" ++
            format_path scriptName path ++ "':") availableOptions with
        | none => Except.error "Command cancelled by user"
        | some choice =>
          match lookupVal entries choice with
          | none =>
            Except.error ("Script '" ++ format_path scriptName path ++
              "' has no subcommand '" ++ choice ++ "'. Available options: " ++
              String.intercalate ", " availableOptions)
          | some child =>
            match fuel with
            | 0 => Except.error ("Script '" ++ format_path scriptName path ++
                "' exceeded resolution depth")
            | fuel' + 1 =>
              resolveAux scriptName tty prompt fuel' child [] (path ++ [choice])
    | key :: rest =>
      match lookupVal entries key with
      | none =>
        Except.error ("Script '" ++ format_path scriptName path ++
          "' has no subcommand '" ++ key ++ "'. Available options: " ++
          String.intercalate ", " (sortedKeys (entries.map Prod.fst)))
      | some child =>
        match fuel with
        | 0 => Except.error ("Script '" ++ format_path scriptName path ++
            "' exceeded resolution depth")
        | fuel' + 1 =>
          resolveAux scriptName tty prompt fuel' child rest (path ++ [key])
  | _, current, remaining, path =>
      (coerce_steps current scriptName path).map fun steps => (steps, remaining)

/-- `_resolve_script_definition`: resolve nested script structures,
returning shell fragments and the remaining (unconsumed) arguments. -/
def resolve_script_definition (rawScript : Value) (allArgs : List String)
    (scriptName : String) (tty : Bool)
    (prompt : String → List String → Option String) :
    Except String (List String × List String) :=
  resolveAux scriptName tty prompt (valueSize rawScript) rawScript allArgs []

/-- Drop leading whitespace characters (Python's `str.lstrip`). -/
def dropWhitespace : List Char → List Char
  | [] => []
  | c :: rest => if c.isWhitespace then dropWhitespace rest else c :: rest

/-- Python's `str.lstrip()`. -/
def lstrip (s : String) : String := String.mk (dropWhitespace s.data)

/-- Python's `str.strip()` (strip both ends). -/
def strip (s : String) : String :=
  String.mk ((dropWhitespace (dropWhitespace s.data).reverse).reverse)

/-- `stripped.startswith("#")`. -/
def startsWithHash (s : String) : Bool :=
  match s.data with
  | c :: _ => c = '#'
  | [] => false

/-- Split a maximal run of decimal digits off the front (the greedy `\d+`
of the positional patterns). -/
def splitDigits : List Char → List Char × List Char
  | [] => ([], [])
  | c :: rest =>
    if c.isDigit then
      let p := splitDigits rest
      (c :: p.1, p.2)
    else ([], c :: rest)

/-- `int(...)` on a non-empty run of decimal digits. -/
def digitsToNat (ds : List Char) : Nat :=
  ds.foldl (fun acc c => acc * 10 + (c.toNat - 48)) 0

/-- The `repl` closure of `_replace_optional`: `index = N - 1`; the value
when `0 <= index < len(args)`, else the empty string (for `N = 0` the
index is `-1`, never in range). -/
def optionalValue (args : List String) (n : Nat) : String :=
  if n = 0 then "" else args.getD (n - 1) ""

/-- The `repl` closure of `_replace_positional`: `index = N - 1`; when
`index >= len(args)` it raises `Missing positional argument $N`; otherwise
it returns `args[index]` with Python indexing, so `N = 0` (`index = -1`)
yields the last argument, or an uncaught `IndexError` on an empty list. -/
def positionalValue (args : List String) (n : Nat) : Except String String :=
  if n = 0 then
    match args.getLast? with
    | some v => Except.ok v
    | none => Except.error "list index out of range"
  else if args.length < n then
    Except.error ("Missing positional argument $" ++ toString n)
  else
    Except.ok (args.getD (n - 1) "")

/-- Scanner for `_OPTIONAL_PATTERN = (?<!\$)\?\$(\d+)` under `re.sub`:
left to right over the original characters, `pd` records whether the
character just before the current position is `$` (the negative
lookbehind).  A match consumes `?$` and the maximal digit run and emits
the replacement; elsewhere one character is copied.  `fuel` (the wrapper
passes the string length, an upper bound on the scan steps) keeps the
recursion structural. -/
def replaceOptionalAux (args : List String) :
    Nat → Bool → List Char → List Char
  | 0, _, cs => cs
  | _ + 1, _, [] => []
  | fuel + 1, pd, '?' :: '$' :: c :: rest =>
    if pd = false ∧ c.isDigit then
      let p := splitDigits (c :: rest)
      (optionalValue args (digitsToNat p.1)).data ++
        replaceOptionalAux args fuel false p.2
    else
      '?' :: replaceOptionalAux args fuel false ('$' :: c :: rest)
  | fuel + 1, _, c :: rest =>
    c :: replaceOptionalAux args fuel (c = '$') rest

/-- `_replace_optional`: replace optional positional placeholders like
`?$1`; never fails. -/
def replace_optional (command : String) (args : List String) : String :=
  String.mk (replaceOptionalAux args command.data.length false command.data)

/-- Scanner for `_ARG_PATTERN = (?<!\$)\$(\d+)` under `re.sub`; the first
failing replacement aborts the pass (a raised exception). -/
def replacePositionalAux (args : List String) :
    Nat → Bool → List Char → Except String (List Char)
  | 0, _, cs => Except.ok cs
  | _ + 1, _, [] => Except.ok []
  | fuel + 1, pd, '$' :: c :: rest =>
    if pd = false ∧ c.isDigit then
      let p := splitDigits (c :: rest)
      match positionalValue args (digitsToNat p.1) with
      | Except.error e => Except.error e
      | Except.ok v =>
        match replacePositionalAux args fuel false p.2 with
        | Except.error e => Except.error e
        | Except.ok tail => Except.ok (v.data ++ tail)
    else
      match replacePositionalAux args fuel true (c :: rest) with
      | Except.error e => Except.error e
      | Except.ok tail => Except.ok ('$' :: tail)
  | fuel + 1, _, c :: rest =>
    match replacePositionalAux args fuel (c = '$') rest with
    | Except.error e => Except.error e
    | Except.ok tail => Except.ok (c :: tail)

/-- `_replace_positional`: replace required positional placeholders like
`$1`. -/
def replace_positional (command : String) (args : List String) :
    Except String String :=
  (replacePositionalAux args command.data.length false command.data).map
    String.mk

/-- First character of an identifier: `[A-Za-z_]`. -/
def isIdentStart (c : Char) : Bool := c.isAlpha || c = '_'

/-- Later character of an identifier: `[A-Za-z0-9_]`. -/
def isIdentChar (c : Char) : Bool := c.isAlphanum || c = '_'

/-- Split a maximal run of identifier-rest characters off the front (the
greedy `[A-Za-z0-9_]*` of the variable pattern). -/
def splitIdent : List Char → List Char × List Char
  | [] => ([], [])
  | c :: rest =>
    if isIdentChar c then
      let p := splitIdent rest
      (c :: p.1, p.2)
    else ([], c :: rest)

/-- Python's `str.isdigit` on the matched name (always false here, since
the name starts with a letter or underscore; kept for faithfulness). -/
def isAllDigits (cs : List Char) : Bool := cs.all Char.isDigit

/-- Scanner for `_VAR_PATTERN = (?<!\$)\$(?P<name>[A-Za-z_][A-Za-z0-9_]*)`
under `re.sub`; an undefined variable aborts the pass. -/
def replaceVarsAux (varsDict : List (String × String)) :
    Nat → Bool → List Char → Except String (List Char)
  | 0, _, cs => Except.ok cs
  | _ + 1, _, [] => Except.ok []
  | fuel + 1, pd, '$' :: c :: rest =>
    if pd = false ∧ isIdentStart c then
      let p := splitIdent rest
      let name := String.mk (c :: p.1)
      if isAllDigits (c :: p.1) then
        match replaceVarsAux varsDict fuel false p.2 with
        | Except.error e => Except.error e
        | Except.ok tail => Except.ok ('$' :: c :: (p.1 ++ tail))
      else
        match lookupStr varsDict name with
        | none => Except.error ("Unknown variable '$" ++ name ++ "'")
        | some v =>
          match replaceVarsAux varsDict fuel false p.2 with
          | Except.error e => Except.error e
          | Except.ok tail => Except.ok (v.data ++ tail)
    else
      match replaceVarsAux varsDict fuel true (c :: rest) with
      | Except.error e => Except.error e
      | Except.ok tail => Except.ok ('$' :: tail)
  | fuel + 1, _, c :: rest =>
    match replaceVarsAux varsDict fuel (c = '$') rest with
    | Except.error e => Except.error e
    | Except.ok tail => Except.ok (c :: tail)

/-- `_replace_vars`: replace variable placeholders using config vars. -/
def replace_vars (command : String) (varsDict : List (String × String)) :
    Except String String :=
  (replaceVarsAux varsDict command.data.length false command.data).map
    String.mk

/-- `command.replace("$$", "$")`: left-to-right, non-overlapping. -/
def unescapeAux : List Char → List Char
  | '$' :: '$' :: rest => '$' :: unescapeAux rest
  | c :: rest => c :: unescapeAux rest
  | [] => []

/-- `_unescape_dollars`: convert `$$` back to `$`, after all
substitutions. -/
def unescape_dollars (command : String) : String :=
  String.mk (unescapeAux command.data)

/-- One iteration of the loop in `render_script`: `none` when the step is
dropped (comment, empty, or empty after rendering). -/
def renderStep (rawStep : String) (args : List String)
    (varsDict : List (String × String)) : Except String (Option String) :=
  let stripped := lstrip rawStep
  if stripped = "" ∨ startsWithHash stripped then Except.ok none
  else
    match replace_positional (replace_optional rawStep args) args with
    | Except.error e => Except.error e
    | Except.ok step2 =>
      match replace_vars step2 varsDict with
      | Except.error e => Except.error e
      | Except.ok step3 =>
        let finalStep := strip (unescape_dollars step3)
        if finalStep = "" then Except.ok none else Except.ok (some finalStep)

/-- `render_script`: the list of executable command strings after
substitution; the first raised error aborts the whole call (the loop body
raises before any partial result is returned). -/
def render_script (scriptSteps : List String) (args : List String)
    (varsDict : List (String × String)) : Except String (List String) :=
  match scriptSteps with
  | [] => Except.ok []
  | s :: rest =>
    match renderStep s args varsDict with
    | Except.error e => Except.error e
    | Except.ok o =>
      match render_script rest args varsDict with
      | Except.error e => Except.error e
      | Except.ok tail =>
        Except.ok
          (match o with
           | none => tail
           | some c => c :: tail)

/-- Resolution followed by rendering: the body of `execute` after the
script lookup (the subprocess dispatch below it is out of scope; the
rendered steps are returned to the caller). -/
def resolveThenRender (rawScript : Value) (cmdName : String)
    (args : List String) (varsDict : List (String × String)) (tty : Bool)
    (prompt : String → List String → Option String) :
    Except String (List String) :=
  match resolve_script_definition rawScript args cmdName tty prompt with
  | Except.error e => Except.error e
  | Except.ok (stepsList, callArgs) => render_script stepsList callArgs varsDict

/-- `execute` up to the rendered step list: script lookup with the
`"run"`-fallback remapping, then resolution and rendering. -/
def execute (scripts : List (String × Value))
    (varsDict : List (String × String)) (cmdName : String)
    (args : List String) (tty : Bool)
    (prompt : String → List String → Option String) :
    Except String (List String) :=
  match lookupVal scripts cmdName with
  | some rawScript => resolveThenRender rawScript cmdName args varsDict tty prompt
  | none =>
    match lookupVal scripts "run" with
    | some (Value.map runEntries) =>
      if (lookupVal runEntries cmdName).isSome then
        resolveThenRender (Value.map runEntries) "run" (cmdName :: args)
          varsDict tty prompt
      else Except.error ("Script '" ++ cmdName ++ "' is not defined")
    | _ => Except.error ("Script '" ++ cmdName ++ "' is not defined")

/-- A prompt that always cancels (a non-interactive stand-in). -/
def promptNone : String → List String → Option String := fun _ _ => none

/-- The two-level nested tree of the spec's resolution test. -/
def exampleTree : Value :=
  Value.map [("example", Value.map [("date",
    Value.map [("utc", Value.seq [Value.str "date -u"])])])]

/-! ### The code-point order on strings is a total order -/

theorem charsLe_total : ∀ as bs : List Char,
    charsLe as bs = true ∨ charsLe bs as = true
  | [], _ => Or.inl rfl
  | _ :: _, [] => Or.inr rfl
  | a :: as, b :: bs => by
    by_cases hab : a = b
    · subst hab
      rcases charsLe_total as bs with h | h
      · exact Or.inl (by simpa [charsLe] using h)
      · exact Or.inr (by simpa [charsLe] using h)
    · rcases lt_or_gt_of_ne hab with h | h
      · exact Or.inl (by simp [charsLe, hab, h])
      · exact Or.inr (by simp [charsLe, Ne.symm hab, h])

theorem charsLe_trans : ∀ as bs cs : List Char,
    charsLe as bs = true → charsLe bs cs = true → charsLe as cs = true
  | [], _, _, _, _ => rfl
  | _ :: _, [], _, h1, _ => by simp [charsLe] at h1
  | _ :: _, _ :: _, [], _, h2 => by simp [charsLe] at h2
  | a :: as, b :: bs, c :: cs, h1, h2 => by
    by_cases hab : a = b <;> by_cases hbc : b = c
    · subst hab; subst hbc
      simp only [charsLe, if_pos rfl] at h1 h2 ⊢
      exact charsLe_trans as bs cs h1 h2
    · subst hab
      simp only [charsLe, if_neg hbc] at h2
      simp [charsLe, hbc, of_decide_eq_true h2]
    · subst hbc
      simp only [charsLe, if_neg hab] at h1
      simp [charsLe, hab, of_decide_eq_true h1]
    · simp only [charsLe, if_neg hab] at h1
      simp only [charsLe, if_neg hbc] at h2
      have hac : a < c := lt_trans (of_decide_eq_true h1) (of_decide_eq_true h2)
      simp [charsLe, ne_of_lt hac, hac]

theorem charsLe_antisymm : ∀ as bs : List Char,
    charsLe as bs = true → charsLe bs as = true → as = bs
  | [], [], _, _ => rfl
  | [], _ :: _, _, h2 => by simp [charsLe] at h2
  | _ :: _, [], h1, _ => by simp [charsLe] at h1
  | a :: as, b :: bs, h1, h2 => by
    by_cases hab : a = b
    · subst hab
      simp only [charsLe, if_pos rfl] at h1 h2
      rw [charsLe_antisymm as bs h1 h2]
    · simp only [charsLe, if_neg hab] at h1
      simp only [charsLe, if_neg (Ne.symm hab)] at h2
      exact absurd (of_decide_eq_true h2) (not_lt_of_gt (of_decide_eq_true h1))

instance : IsTotal String strLeP :=
  ⟨fun a b => charsLe_total a.data b.data⟩

instance : IsTrans String strLeP :=
  ⟨fun a b c => charsLe_trans a.data b.data c.data⟩

instance : IsAntisymm String strLeP :=
  ⟨fun a b h1 h2 => congrArg String.mk (charsLe_antisymm a.data b.data h1 h2)⟩

/-- The key listing is sorted in the code-point (alphabetical) order. -/
theorem sortedKeys_sorted (l : List String) :
    List.Sorted strLeP (sortedKeys l) :=
  List.sorted_insertionSort strLeP l

/-- The key listing is a permutation of the keys it was built from. -/
theorem sortedKeys_perm (l : List String) : List.Perm (sortedKeys l) l :=
  List.perm_insertionSort strLeP l

/-- Two key lists that are permutations of each other (the same keys in any
insertion order) produce the same sorted listing. -/
theorem sortedKeys_eq_of_perm {l1 l2 : List String} (h : List.Perm l1 l2) :
    sortedKeys l1 = sortedKeys l2 :=
  List.eq_of_perm_of_sorted
    ((sortedKeys_perm l1).trans (h.trans (sortedKeys_perm l2).symm))
    (sortedKeys_sorted l1) (sortedKeys_sorted l2)

/-! ### Invariants of the Resolver -/

/-- A successful resolution returns a suffix of the argument list: the
unconsumed arguments, unchanged. -/
theorem resolveAux_suffix (name : String) (tty : Bool)
    (prompt : String → List String → Option String) :
    ∀ (fuel : Nat) (node : Value) (args path steps rem : List String),
      resolveAux name tty prompt fuel node args path = Except.ok (steps, rem) →
      rem <:+ args := by
  intro fuel
  induction fuel with
  | zero =>
    intro node args path steps rem h
    cases node with
    | map entries =>
      cases args with
      | nil =>
        simp only [resolveAux] at h
        split at h
        · simp at h
        · split at h
          · simp at h
          · split at h
            · simp at h
            · simp at h
      | cons key rest =>
        simp only [resolveAux] at h
        split at h
        · simp at h
        · simp at h
    | str s =>
      simp only [resolveAux, coerce_steps, Except.map, Except.ok.injEq,
        Prod.mk.injEq] at h
      rw [← h.2]
    | seq xs =>
      simp only [resolveAux, coerce_steps] at h
      split at h
      · simp only [Except.map, Except.ok.injEq, Prod.mk.injEq] at h
        rw [← h.2]
      · simp [Except.map] at h
    | other =>
      simp [resolveAux, coerce_steps, Except.map] at h
  | succ n ih =>
    intro node args path steps rem h
    cases node with
    | map entries =>
      cases args with
      | nil =>
        simp only [resolveAux] at h
        split at h
        · simp at h
        · split at h
          · simp at h
          · split at h
            · simp at h
            · exact ih _ _ _ _ _ h
      | cons key rest =>
        simp only [resolveAux] at h
        split at h
        · simp at h
        · exact (ih _ _ _ _ _ h).trans (List.suffix_cons key rest)
    | str s =>
      simp only [resolveAux, coerce_steps, Except.map, Except.ok.injEq,
        Prod.mk.injEq] at h
      rw [← h.2]
    | seq xs =>
      simp only [resolveAux, coerce_steps] at h
      split at h
      · simp only [Except.map, Except.ok.injEq, Prod.mk.injEq] at h
        rw [← h.2]
      · simp [Except.map] at h
    | other =>
      simp [resolveAux, coerce_steps, Except.map] at h


theorem format_path_data_prefix (name : String) (path : List String) :
    ∃ t, (format_path name path).data = name.data ++ t := by
  unfold format_path
  split
  · exact ⟨[], by simp⟩
  · exact ⟨'.' :: (String.intercalate "." path).data,
      by simp [String.data_append]⟩

theorem name_infix_msg (name m : String) (path : List String) (pre post : String)
    (h : m.data = (pre ++ format_path name path ++ post).data) :
    name.data <:+: m.data := by
  obtain ⟨t, ht⟩ := format_path_data_prefix name path
  refine ⟨pre.data, t ++ post.data, ?_⟩
  rw [h]
  simp [String.data_append, ht, List.append_assoc]

theorem coerce_steps_error_name (payload : Value) (name : String)
    (path : List String) (m : String)
    (h : coerce_steps payload name path = Except.error m) :
    name.data <:+: m.data := by
  cases payload with
  | str s => simp [coerce_steps] at h
  | seq xs =>
    simp only [coerce_steps] at h
    split at h
    · simp at h
    · simp only [Except.error.injEq] at h
      exact name_infix_msg name m path "Script '" "' must contain only string steps"
        (by simp [← h, String.data_append, List.append_assoc])
  | map entries => 
    simp only [coerce_steps, Except.error.injEq] at h
    exact name_infix_msg name m path "Script '" "' has unsupported payload type"
      (by simp [← h, String.data_append, List.append_assoc])
  | other =>
    simp only [coerce_steps, Except.error.injEq] at h
    exact name_infix_msg name m path "Script '" "' has unsupported payload type"
      (by simp [← h, String.data_append, List.append_assoc])

/-- Every error raised while resolving either is the cancellation notice
(which carries no script name) or contains the script name (through the
path-qualified `format_path`). -/
theorem resolveAux_error_name (name : String) (tty : Bool)
    (prompt : String → List String → Option String) :
    ∀ (fuel : Nat) (node : Value) (args path : List String) (m : String),
      resolveAux name tty prompt fuel node args path = Except.error m →
      m = "Command cancelled by user" ∨ name.data <:+: m.data := by
  intro fuel
  induction fuel with
  | zero =>
    intro node args path m h
    cases node with
    | map entries =>
      cases args with
      | nil =>
        simp only [resolveAux] at h
        split at h
        · simp only [Except.error.injEq] at h
          refine Or.inr (name_infix_msg name m path "Script '"
            ("' requires a subcommand. Available options: " ++
              String.intercalate ", " (sortedKeys (entries.map Prod.fst)))
            (by simp [← h, String.data_append, List.append_assoc]))
        · split at h
          · simp only [Except.error.injEq] at h
            exact Or.inl h.symm
          · split at h
            · rename_i xp choice hprompt xv hlookup
              simp only [Except.error.injEq] at h
              refine Or.inr (name_infix_msg name m path "Script '"
                ("' has no subcommand '" ++ choice ++ "'. Available options: " ++
                  String.intercalate ", " (sortedKeys (entries.map Prod.fst)))
                (by simp [← h, String.data_append, List.append_assoc]))
            · simp only [Except.error.injEq] at h
              refine Or.inr (name_infix_msg name m path "Script '"
                "' exceeded resolution depth"
                (by simp [← h, String.data_append, List.append_assoc]))
      | cons key rest =>
        simp only [resolveAux] at h
        split at h
        · simp only [Except.error.injEq] at h
          refine Or.inr (name_infix_msg name m path "Script '"
            ("' has no subcommand '" ++ key ++ "'. Available options: " ++
              String.intercalate ", " (sortedKeys (entries.map Prod.fst)))
            (by simp [← h, String.data_append, List.append_assoc]))
        · simp only [Except.error.injEq] at h
          refine Or.inr (name_infix_msg name m path "Script '"
            "' exceeded resolution depth"
            (by simp [← h, String.data_append, List.append_assoc]))
    | str s => simp [resolveAux, coerce_steps, Except.map] at h
    | seq xs =>
      simp only [resolveAux] at h
      cases hc : coerce_steps (Value.seq xs) name path with
      | ok v => rw [hc] at h; simp [Except.map] at h
      | error e =>
        rw [hc] at h
        simp only [Except.map, Except.error.injEq] at h
        exact Or.inr (h ▸ coerce_steps_error_name _ name path e hc)
    | other =>
      simp only [resolveAux] at h
      cases hc : coerce_steps Value.other name path with
      | ok v => rw [hc] at h; simp [Except.map] at h
      | error e =>
        rw [hc] at h
        simp only [Except.map, Except.error.injEq] at h
        exact Or.inr (h ▸ coerce_steps_error_name _ name path e hc)
  | succ n ih =>
    intro node args path m h
    cases node with
    | map entries =>
      cases args with
      | nil =>
        simp only [resolveAux] at h
        split at h
        · simp only [Except.error.injEq] at h
          refine Or.inr (name_infix_msg name m path "Script '"
            ("' requires a subcommand. Available options: " ++
              String.intercalate ", " (sortedKeys (entries.map Prod.fst)))
            (by simp [← h, String.data_append, List.append_assoc]))
        · split at h
          · simp only [Except.error.injEq] at h
            exact Or.inl h.symm
          · split at h
            · rename_i xp choice hprompt xv hlookup
              simp only [Except.error.injEq] at h
              refine Or.inr (name_infix_msg name m path "Script '"
                ("' has no subcommand '" ++ choice ++ "'. Available options: " ++
                  String.intercalate ", " (sortedKeys (entries.map Prod.fst)))
                (by simp [← h, String.data_append, List.append_assoc]))
            · exact ih _ _ _ _ h
      | cons key rest =>
        simp only [resolveAux] at h
        split at h
        · simp only [Except.error.injEq] at h
          refine Or.inr (name_infix_msg name m path "Script '"
            ("' has no subcommand '" ++ key ++ "'. Available options: " ++
              String.intercalate ", " (sortedKeys (entries.map Prod.fst)))
            (by simp [← h, String.data_append, List.append_assoc]))
        · exact ih _ _ _ _ h
    | str s => simp [resolveAux, coerce_steps, Except.map] at h
    | seq xs =>
      simp only [resolveAux] at h
      cases hc : coerce_steps (Value.seq xs) name path with
      | ok v => rw [hc] at h; simp [Except.map] at h
      | error e =>
        rw [hc] at h
        simp only [Except.map, Except.error.injEq] at h
        exact Or.inr (h ▸ coerce_steps_error_name _ name path e hc)
    | other =>
      simp only [resolveAux] at h
      cases hc : coerce_steps Value.other name path with
      | ok v => rw [hc] at h; simp [Except.map] at h
      | error e =>
        rw [hc] at h
        simp only [Except.map, Except.error.injEq] at h
        exact Or.inr (h ▸ coerce_steps_error_name _ name path e hc)

/-- Rendering the single template `echo $2` with fewer than two arguments
fails with the missing-argument message for index 2, whatever the variable
table holds (the error is raised before the variable pass runs). -/
theorem render_echo_dollar_two (args : List String)
    (varsDict : List (String × String)) (hlen : args.length < 2) :
    render_script ["echo $2"] args varsDict =
      Except.error "Missing positional argument $2" := by
  have ht : toString (2 : Nat) = "2" := rfl
  simp [render_script, renderStep, lstrip, dropWhitespace, startsWithHash,
    replace_optional, replaceOptionalAux, replace_positional,
    replacePositionalAux, splitDigits, digitsToNat, positionalValue, hlen,
    Except.map, ht]

/-- An error while rendering one template aborts the whole `render_script`
call: whatever was rendered for the earlier templates is discarded. -/
theorem render_script_error_aborts (args : List String)
    (varsDict : List (String × String)) :
    ∀ (pre : List String) (t : String) (post okPre : List String) (e : String),
      render_script pre args varsDict = Except.ok okPre →
      renderStep t args varsDict = Except.error e →
      render_script (pre ++ t :: post) args varsDict = Except.error e := by
  intro pre
  induction pre with
  | nil =>
    intro t post okPre e _ h2
    simp [render_script, h2]
  | cons s pre ih =>
    intro t post okPre e h1 h2
    simp only [render_script] at h1
    cases hs : renderStep s args varsDict with
    | error e' => rw [hs] at h1; simp at h1
    | ok o =>
      rw [hs] at h1
      cases hp : render_script pre args varsDict with
      | error e' => rw [hp] at h1; simp at h1
      | ok tail =>
        have := ih t post tail e hp h2
        simp only [List.cons_append, render_script, hs, List.append_eq, this]

/-! ### The claims -/

/-- C1: for every argument list with at least one element and every
variable table, rendering the single template `echo $$$1` produces exactly
`["echo $$1"]`: the `$$` pair blocks substitution of the following `$1`
(the negative lookbehind sees the second `$`), and the final unescape
collapses the pair, leaving one literal `$` before the untouched-looking
marker.  The result in fact holds for every argument list. -/
theorem c1_triple_dollar_quirk (args : List String)
    (varsDict : List (String × String)) (h : args ≠ []) :
    render_script ["echo $$$1"] args varsDict = Except.ok ["echo $$1"] := rfl

theorem c1_triple_dollar_quirk_witness :
    (["value"] : List String) ≠ [] ∧
      render_script ["echo $$$1"] ["value"] [] = Except.ok ["echo $$1"] :=
  ⟨by decide, c1_triple_dollar_quirk ["value"] [] (by decide)⟩

/-- C2 counterexample: resolving an Internal node with zero keys (an empty
mapping) does not succeed with zero steps — non-interactively with no
arguments it raises the requires-a-subcommand error (with an empty options
listing), because `while isinstance(current, Mapping)` treats the empty
dict as a branch, not as a leaf. -/
theorem c2_empty_mapping_counterexample :
    resolve_script_definition (Value.map []) [] "empty" false promptNone =
      Except.error "Script 'empty' requires a subcommand. Available options: " :=
  rfl

/-- C2 (amended): resolving a script whose node is an empty mapping never
succeeds in a non-interactive session: with an empty argument list it
raises the requires-a-subcommand error listing no options, and with a
non-empty argument list it raises the no-such-subcommand error for the
first argument. -/
theorem c2_empty_mapping_errors (args : List String) (name : String)
    (prompt : String → List String → Option String) :
    resolve_script_definition (Value.map []) args name false prompt =
      (match args with
       | [] => Except.error ("Script '" ++ name ++
           "' requires a subcommand. Available options: ")
       | key :: _ => Except.error ("Script '" ++ name ++
           "' has no subcommand '" ++ key ++ "'. Available options: ")) := by
  have hi : String.intercalate ", " ([] : List String) = "" := rfl
  cases args with
  | nil =>
    simp [resolve_script_definition, resolveAux, sortedKeys, format_path,
      valueSize, entriesSize, hi, String.append_empty]
  | cons key rest =>
    simp [resolve_script_definition, resolveAux, sortedKeys, format_path,
      lookupVal, valueSize, entriesSize, hi, String.append_empty]

/-- C3 counterexample: the `MissingArgument` error raised for `echo $2`
under script `greet` is `Missing positional argument $2`, which does not
contain the script name: not every core error carries the path-qualified
script name. -/
theorem c3_unqualified_message_counterexample :
    execute [("greet", Value.str "echo $2")] [] "greet" ["a"] false
        promptNone = Except.error "Missing positional argument $2" ∧
      ¬ (("greet" : String).data <:+:
          ("Missing positional argument $2" : String).data) :=
  ⟨rfl, by decide⟩

/-- C3 (amended): every error raised while resolving carries the
path-qualified script name in its message except the cancellation notice;
the renderer's `MissingArgument` (and `UnknownVariable`) messages carry
only the index or variable name and not the script name, as the `greet`
example shows. -/
theorem c3_resolver_errors_carry_name (node : Value) (args : List String)
    (name : String) (tty : Bool)
    (prompt : String → List String → Option String) (m : String)
    (h : resolve_script_definition node args name tty prompt =
      Except.error m) :
    (m = "Command cancelled by user" ∨ name.data <:+: m.data) ∧
      execute [("greet", Value.str "echo $2")] [] "greet" ["a"] false
          promptNone = Except.error "Missing positional argument $2" ∧
      ¬ (("greet" : String).data <:+:
          ("Missing positional argument $2" : String).data) :=
  ⟨resolveAux_error_name name tty prompt (valueSize node) node args [] m h,
    rfl, by decide⟩

theorem c3_resolver_errors_carry_name_witness :
    (("Script 'x' requires a subcommand. Available options: " : String) =
        "Command cancelled by user" ∨
      ("x" : String).data <:+:
        ("Script 'x' requires a subcommand. Available options: " : String).data) ∧
      execute [("greet", Value.str "echo $2")] [] "greet" ["a"] false
          promptNone = Except.error "Missing positional argument $2" ∧
      ¬ (("greet" : String).data <:+:
          ("Missing positional argument $2" : String).data) :=
  c3_resolver_errors_carry_name (Value.map []) [] "x" false promptNone
    "Script 'x' requires a subcommand. Available options: " rfl

/-- C4 counterexample: the template `echo ?$1$2` contains the unescaped
required marker `$2` and only one argument is supplied, yet rendering
succeeds: the optional pass substitutes `?$1` with the argument `a$`,
whose trailing dollar then escapes the `$2` in the intermediate string, so
the required pass never sees a failing marker. -/
theorem c4_escaped_by_substitution_counterexample :
    render_script ["echo ?$1$2"] ["a$"] [] = Except.ok ["echo a$2"] := rfl

/-- C4 (amended): render fails with `MissingArgument` naming index `N`
whenever the required-positional pass, scanning the string produced by the
optional pass, meets an unescaped marker `$N` with `N` greater than the
argument count — in particular `render(["echo $2"], ["only-one"], {})`
fails for index 2 — and any failure aborts the whole call: templates
rendered before the failing one are discarded, never returned. -/
theorem c4_missing_argument_aborts (args : List String)
    (varsDict : List (String × String)) (pre : List String) (t : String)
    (post okPre : List String) (e : String) (hlen : args.length < 2)
    (hpre : render_script pre args varsDict = Except.ok okPre)
    (hstep : renderStep t args varsDict = Except.error e) :
    render_script ["echo $2"] args varsDict =
        Except.error "Missing positional argument $2" ∧
      render_script (pre ++ t :: post) args varsDict = Except.error e :=
  ⟨render_echo_dollar_two args varsDict hlen,
    render_script_error_aborts args varsDict pre t post okPre e hpre hstep⟩

theorem c4_missing_argument_aborts_witness :
    render_script ["echo $2"] ["only-one"] [] =
        Except.error "Missing positional argument $2" ∧
      render_script (["echo $1"] ++ "echo $2" :: []) ["only-one"] [] =
        Except.error "Missing positional argument $2" :=
  c4_missing_argument_aborts ["only-one"] [] ["echo $1"] "echo $2" []
    ["echo only-one"] "Missing positional argument $2" (by decide) rfl rfl

/-- C5: when the requested top-level script name is absent but the sibling
`run` mapping contains it as a key, `execute` retries resolution exactly
once with the `run` node as root and the name pushed back onto the front
of the arguments — the right-hand side contains no further remapping, so
the retry happens at most once — and the script is thereby reachable via
its original name alone, as the concrete `service` example shows. -/
theorem c5_run_fallback (scripts : List (String × Value))
    (varsDict : List (String × String)) (cmdName : String)
    (args : List String) (tty : Bool)
    (prompt : String → List String → Option String)
    (runEntries : List (String × Value))
    (h1 : lookupVal scripts cmdName = none)
    (h2 : lookupVal scripts "run" = some (Value.map runEntries))
    (h3 : (lookupVal runEntries cmdName).isSome = true) :
    execute scripts varsDict cmdName args tty prompt =
        resolveThenRender (Value.map runEntries) "run" (cmdName :: args)
          varsDict tty prompt ∧
      execute [("run", Value.map [("service", Value.str "echo example")])]
          [] "service" [] false promptNone = Except.ok ["echo example"] := by
  refine ⟨?_, rfl⟩
  simp [execute, h1, h2, h3]

theorem c5_run_fallback_witness :
    (execute [("run", Value.map [("service", Value.str "echo example")])]
          [] "service" [] false promptNone =
        resolveThenRender
          (Value.map [("service", Value.str "echo example")]) "run"
          ["service"] [] false promptNone) ∧
      execute [("run", Value.map [("service", Value.str "echo example")])]
          [] "service" [] false promptNone = Except.ok ["echo example"] :=
  c5_run_fallback [("run", Value.map [("service", Value.str "echo example")])]
    [] "service" [] false promptNone
    [("service", Value.str "echo example")] rfl rfl rfl

/-- C6: resolution of the nested tree
`{example: {date: {utc: ["date -u"]}}}` with arguments
`["example", "date", "utc", "extra"]` consumes three keys and returns
`(["date -u"], ["extra"])`; in general, whatever a successful resolution
returns as remaining arguments is the unconsumed suffix of the supplied
argument list, unchanged. -/
theorem c6_resolve_returns_suffix (node : Value) (args : List String)
    (name : String) (tty : Bool)
    (prompt : String → List String → Option String)
    (steps rem : List String)
    (h : resolve_script_definition node args name tty prompt =
      Except.ok (steps, rem)) :
    rem <:+ args ∧
      resolve_script_definition exampleTree
          ["example", "date", "utc", "extra"] "example" false promptNone =
        Except.ok (["date -u"], ["extra"]) :=
  ⟨resolveAux_suffix name tty prompt (valueSize node) node args [] steps rem h,
    rfl⟩

theorem c6_resolve_returns_suffix_witness :
    (["extra"] : List String) <:+ ["example", "date", "utc", "extra"] ∧
      resolve_script_definition exampleTree
          ["example", "date", "utc", "extra"] "example" false promptNone =
        Except.ok (["date -u"], ["extra"]) :=
  c6_resolve_returns_suffix exampleTree ["example", "date", "utc", "extra"]
    "example" false promptNone ["date -u"] ["extra"] rfl

/-- C7: resolving a branch node with an empty argument list in a
non-interactive session fails with the requires-a-subcommand error whose
message lists the node's keys sorted in the code-point (alphabetical)
order; the listing is a sorted permutation of the keys and is identical
for any two insertion orders of the same entries. -/
theorem c7_ambiguous_lists_sorted_keys (entries entries2 : List (String × Value))
    (name : String) (prompt : String → List String → Option String)
    (hperm : List.Perm entries entries2) :
    resolve_script_definition (Value.map entries) [] name false prompt =
        Except.error ("Script '" ++ name ++
          "' requires a subcommand. Available options: " ++
          String.intercalate ", " (sortedKeys (entries.map Prod.fst))) ∧
      List.Sorted strLeP (sortedKeys (entries.map Prod.fst)) ∧
      List.Perm (sortedKeys (entries.map Prod.fst)) (entries.map Prod.fst) ∧
      sortedKeys (entries.map Prod.fst) = sortedKeys (entries2.map Prod.fst) := by
  refine ⟨?_, sortedKeys_sorted _, sortedKeys_perm _,
    sortedKeys_eq_of_perm (hperm.map Prod.fst)⟩
  simp [resolve_script_definition, resolveAux, format_path, valueSize]

theorem c7_ambiguous_lists_sorted_keys_witness :
    (resolve_script_definition
          (Value.map [("b", Value.str "1"), ("a", Value.str "2")]) [] "s"
          false promptNone =
        Except.error ("Script '" ++ "s" ++
          "' requires a subcommand. Available options: " ++
          String.intercalate ", "
            (sortedKeys ([("b", Value.str "1"),
              ("a", Value.str "2")].map Prod.fst)))) ∧
      List.Sorted strLeP (sortedKeys ([("b", Value.str "1"),
        ("a", Value.str "2")].map Prod.fst)) ∧
      List.Perm (sortedKeys ([("b", Value.str "1"),
          ("a", Value.str "2")].map Prod.fst))
        ([("b", Value.str "1"), ("a", Value.str "2")].map Prod.fst) ∧
      sortedKeys ([("b", Value.str "1"), ("a", Value.str "2")].map Prod.fst) =
        sortedKeys ([("a", Value.str "2"), ("b", Value.str "1")].map Prod.fst) :=
  c7_ambiguous_lists_sorted_keys
    [("b", Value.str "1"), ("a", Value.str "2")]
    [("a", Value.str "2"), ("b", Value.str "1")] "s" promptNone
    (List.Perm.swap ("a", Value.str "2") ("b", Value.str "1") [])

/-- C8: the optional-positional pass never errors (by construction
`replace_optional` is a total function into `String`): for `N ≥ 1` the
replacement value is `args[N-1]` when the index exists and the empty
string otherwise — shown generally for the replacement function and for
the out-of-range marker `?$9` under any argument list with at most eight
elements — and the spec's two examples render as stated. -/
theorem c8_optional_pass (args args2 : List String) (n : Nat) (h : 1 ≤ n)
    (h9 : args2.length ≤ 8) :
    optionalValue args n = args.getD (n - 1) "" ∧
      replace_optional "echo ?$9" args2 = "echo " ∧
      render_script ["echo ?$1 $$2"] ["arg1"] [] =
        Except.ok ["echo arg1 $2"] ∧
      render_script ["echo ?$1 $$2"] [] [] = Except.ok ["echo  $2"] := by
  refine ⟨?_, ?_, rfl, rfl⟩
  · have hn : n ≠ 0 := by omega
    simp [optionalValue, hn]
  · have hnone : args2[8]? = none := by
      rw [List.getElem?_eq_none_iff]
      omega
    simp [replace_optional, replaceOptionalAux, splitDigits, digitsToNat,
      optionalValue, hnone]

theorem c8_optional_pass_witness :
    optionalValue ["x"] 1 = (["x"] : List String).getD 0 "" ∧
      replace_optional "echo ?$9" [] = "echo " ∧
      render_script ["echo ?$1 $$2"] ["arg1"] [] =
        Except.ok ["echo arg1 $2"] ∧
      render_script ["echo ?$1 $$2"] [] [] = Except.ok ["echo  $2"] :=
  c8_optional_pass ["x"] [] 1 (by decide) (by decide)

/-- C9 counterexample: with an empty argument list `$0` does not fail as a
missing argument — the index `-1` passes the `index >= len(args)` check
and `args[-1]` raises an uncaught `IndexError` (`list index out of
range`), whose message is not a missing-argument message. -/
theorem c9_empty_args_index_error_counterexample :
    render_script ["echo $0"] [] [] =
        Except.error "list index out of range" ∧
      ¬ (("Missing" : String).data <:+:
          ("list index out of range" : String).data) :=
  ⟨rfl, by decide⟩

/-- C9 (amended): for every non-empty argument list an unescaped `$0`
marker is substituted with the last argument (index `0 - 1 = -1` wraps
around via Python negative indexing); with an empty argument list `$0`
fails with the uncaught index-out-of-range error, not the
`MissingArgument` error; and `?$0` is always replaced by the empty
string. -/
theorem c9_dollar_zero_wraps (args : List String) (last : String)
    (h : args.getLast? = some last) :
    replace_positional "echo $0" args = Except.ok ("echo " ++ last) ∧
      replace_positional "echo $0" [] =
        Except.error "list index out of range" ∧
      replace_optional "echo ?$0" args = "echo " ∧
      render_script ["echo $0"] [] [] =
        Except.error "list index out of range" := by
  refine ⟨?_, rfl, ?_, rfl⟩
  · simp [replace_positional, replacePositionalAux, splitDigits, digitsToNat,
      positionalValue, h, Except.map]
    rfl
  · simp [replace_optional, replaceOptionalAux, splitDigits, digitsToNat,
      optionalValue]

theorem c9_dollar_zero_wraps_witness :
    replace_positional "echo $0" ["a", "b"] = Except.ok ("echo " ++ "b") ∧
      replace_positional "echo $0" [] =
        Except.error "list index out of range" ∧
      replace_optional "echo ?$0" ["a", "b"] = "echo " ∧
      render_script ["echo $0"] [] [] =
        Except.error "list index out of range" :=
  c9_dollar_zero_wraps ["a", "b"] "b" rfl

/-- C10: substitution is not hygienic across passes — an argument value
substituted by the positional pass is re-scanned by the later variable
pass and the final unescape: `$home` inside an argument triggers an
unknown-variable failure when `home` is undefined and a substitution when
it is defined, and `$$` inside an argument collapses to a single `$`. -/
theorem c10_substitution_not_hygienic :
    render_script ["echo $1"] ["$home"] [] =
        Except.error "Unknown variable '$home'" ∧
      render_script ["echo $1"] ["$home"] [("home", "/root")] =
        Except.ok ["echo /root"] ∧
      render_script ["echo $1"] ["a$$b"] [] = Except.ok ["echo a$b"] :=
  ⟨rfl, rfl, rfl⟩

end Mcl
